import Mathlib

/-!
Verification development for the ownership-scoped CRUD core of the recipe API.

The embedding models the Django/DRF application state as explicit lists of rows
and each request handler as a pure function from a database value (plus the
authenticated caller's user id) to a new database value or an error.

Source of authority:
  - `src/app/recipe/views.py` gives `BaseRecipeAttrViewSet.get_queryset`
    (ownership filter plus `order_by('-name')`) and
    `BaseRecipeAttrViewSet.perform_create` (owner stamping), instantiated by
    `TagViewSet` and `IngredientViewSet`.
  - The recipe models, serializers and the Recipe viewset are not among the
    provided source files; they are modelled from the spec (and, where the
    repository's own tests pin the behaviour, from those tests). Such
    definitions carry a doc comment starting with `Modelled from the spec:`.
-/

/-- Lexicographic order on character lists as a boolean test; this is the
string comparison underlying the `order_by` clauses of the views. -/
def lexLe : List Char → List Char → Bool
  | [], _ => true
  | _ :: _, [] => false
  | a :: as, b :: bs => if a < b then true else if b < a then false else lexLe as bs

/-- String comparison used by `order_by('name')` and its descending variant. -/
def strLe (s t : String) : Bool := lexLe s.data t.data

/-- Insert an element into a list sorted by the boolean comparison `le`,
keeping it sorted. Part of the kernel-computable model of `order_by`. -/
def insertLe {α : Type} (le : α → α → Bool) (a : α) : List α → List α
  | [] => [a]
  | b :: bs => if le a b then a :: b :: bs else b :: insertLe le a bs

/-- Insertion sort by the boolean comparison `le`: the model of `order_by` —
it returns a permutation of its input that is sorted according to `le`. -/
def sortLe {α : Type} (le : α → α → Bool) : List α → List α
  | [] => []
  | a :: as => insertLe le a (sortLe le as)

/-- Modelled from the spec: the Tag entity of `recipe/models.py` (the models
module is not under the provided sources) — an owning user reference and a
name, as described in the spec's data model. -/
structure Tag where
  id : Nat
  user : Nat
  name : String
deriving DecidableEq

/-- Modelled from the spec: the Ingredient entity of `recipe/models.py` (the
models module is not under the provided sources) — same shape as Tag. -/
structure Ingredient where
  id : Nat
  user : Nat
  name : String
deriving DecidableEq

/-- Modelled from the spec: the Recipe entity of `recipe/models.py` (the models
module is not under the provided sources). `price` is the decimal amount scaled
to an integer number of cents; the many-to-many association sets are the lists
of associated tag ids and ingredient ids. -/
structure Recipe where
  id : Nat
  user : Nat
  title : String
  time_minutes : Int
  price : Int
  link : Option String
  image : Option String
  tags : List Nat
  ingredients : List Nat
deriving DecidableEq

/-- The persistent store: all rows of each entity, plus the id the store will
assign to the next created row. -/
structure Db where
  tags : List Tag
  ingredients : List Ingredient
  recipes : List Recipe
  nextId : Nat
deriving DecidableEq

/-- Error outcomes a request can surface (spec §7). `permissionDenied` is
included so that "surfaces as not-found, never as permission-denied" is a
contentful statement about the code. -/
inductive ApiError where
  | validationFailure
  | notFound
  | permissionDenied
deriving DecidableEq

/-- Embedding of `BaseRecipeAttrViewSet.get_queryset` as instantiated by
`TagViewSet` (`src/app/recipe/views.py` lines 14-16):
`self.queryset.filter(user=self.request.user).order_by('-name')` with
`queryset = Tag.objects.all()`. -/
def TagViewSet.get_queryset (db : Db) (request_user : Nat) : List Tag :=
  sortLe (fun a b => strLe b.name a.name)
    (db.tags.filter (fun t => t.user == request_user))

/-- Embedding of `BaseRecipeAttrViewSet.get_queryset` as instantiated by
`IngredientViewSet` (`src/app/recipe/views.py` lines 14-16) with
`queryset = Ingredient.objects.all()`. -/
def IngredientViewSet.get_queryset (db : Db) (request_user : Nat) : List Ingredient :=
  sortLe (fun a b => strLe b.name a.name)
    (db.ingredients.filter (fun i => i.user == request_user))

/-- Create payload for a Tag or Ingredient. The optional `user` field models a
caller-supplied owner value present in the input; the views discard it. -/
structure AttrPayload where
  name : String
  user : Option Nat
deriving DecidableEq

/-- Embedding of `BaseRecipeAttrViewSet.perform_create` for `TagViewSet`
(`src/app/recipe/views.py` lines 18-20): `serializer.save(user=self.request.user)`
— the owner of the new row is the authenticated caller; any owner value in the
payload is overwritten. -/
def TagViewSet.perform_create (db : Db) (request_user : Nat) (payload : AttrPayload) :
    Db × Tag :=
  let t : Tag := { id := db.nextId, user := request_user, name := payload.name }
  ({ db with tags := db.tags ++ [t], nextId := db.nextId + 1 }, t)

/-- Embedding of `BaseRecipeAttrViewSet.perform_create` for `IngredientViewSet`
(`src/app/recipe/views.py` lines 18-20). -/
def IngredientViewSet.perform_create (db : Db) (request_user : Nat) (payload : AttrPayload) :
    Db × Ingredient :=
  let i : Ingredient := { id := db.nextId, user := request_user, name := payload.name }
  ({ db with ingredients := db.ingredients ++ [i], nextId := db.nextId + 1 }, i)

/-- Modelled from the spec: the Recipe viewset's queryset (the recipe viewset
module is not under the provided sources) — the §4.1 ownership filter, with the
§6 list ordering by descending id; it mirrors the filter of
`BaseRecipeAttrViewSet.get_queryset`. -/
def RecipeViewSet.get_queryset (db : Db) (request_user : Nat) : List Recipe :=
  sortLe (fun a b => decide (b.id ≤ a.id))
    (db.recipes.filter (fun r => r.user == request_user))

/-- Modelled from the spec: detail fetch of a recipe (the recipe viewset module
is not under the provided sources) — §4.1 "filter first, then fetch by id
within that filtered set"; a miss is a not-found condition. -/
def RecipeViewSet.retrieve (db : Db) (request_user : Nat) (rid : Nat) :
    Except ApiError Recipe :=
  match (RecipeViewSet.get_queryset db request_user).find? (fun r => r.id == rid) with
  | some r => Except.ok r
  | none => Except.error ApiError.notFound

/-- Create payload for a Recipe (spec §4.2 / §6). `tags`/`ingredients` are
`none` when the field is entirely absent from the payload and `some l` when
present with id list `l`. The optional `user` field models a caller-supplied
owner value; it is discarded. -/
structure RecipePayload where
  title : String
  time_minutes : Int
  price : Int
  link : Option String
  tags : Option (List Nat)
  ingredients : Option (List Nat)
  user : Option Nat
deriving DecidableEq

/-- PATCH payload for a Recipe: every field optional; `none` means the field is
absent from the request body. -/
structure RecipePatch where
  title : Option String
  time_minutes : Option Int
  price : Option Int
  link : Option String
  tags : Option (List Nat)
  ingredients : Option (List Nat)
  user : Option Nat
deriving DecidableEq

/-- Modelled from the spec: tag-id validation of the aggregate serializer
(§4.2, serializers module not under the provided sources) — every referenced id
must name an existing Tag row. -/
def validTagIds (db : Db) (ids : List Nat) : Bool :=
  ids.all (fun i => db.tags.any (fun t => t.id == i))

/-- Modelled from the spec: ingredient-id validation of the aggregate
serializer (§4.2) — every referenced id must name an existing Ingredient row. -/
def validIngredientIds (db : Db) (ids : List Nat) : Bool :=
  ids.all (fun i => db.ingredients.any (fun g => g.id == i))

/-- Modelled from the spec: §4.2 validation for create and full update — title
required and non-empty, `time_minutes` and `price` non-negative, every
referenced association id must exist. -/
def validRecipePayload (db : Db) (p : RecipePayload) : Bool :=
  (p.title != "") && decide (0 ≤ p.time_minutes) && decide (0 ≤ p.price)
    && validTagIds db (p.tags.getD []) && validIngredientIds db (p.ingredients.getD [])

/-- Modelled from the spec: §4.2 validation for a PATCH — only the fields
present in the body are validated. -/
def validRecipePatch (db : Db) (p : RecipePatch) : Bool :=
  (match p.title with | some t => t != "" | none => true)
    && (match p.time_minutes with | some m => decide (0 ≤ m) | none => true)
    && (match p.price with | some m => decide (0 ≤ m) | none => true)
    && validTagIds db (p.tags.getD []) && validIngredientIds db (p.ingredients.getD [])

/-- Modelled from the spec: §4.2 create (serializers module not under the
provided sources) — validate, then create the row with the owner stamped from
the request (`perform_create` passes `user=self.request.user`, overriding any
payload owner), attaching the referenced associations; atomic: on validation
failure nothing is persisted and the error is surfaced. -/
def RecipeViewSet.create (db : Db) (request_user : Nat) (p : RecipePayload) :
    Except ApiError (Db × Recipe) :=
  if validRecipePayload db p then
    let r : Recipe :=
      { id := db.nextId, user := request_user, title := p.title,
        time_minutes := p.time_minutes, price := p.price, link := p.link,
        image := none, tags := p.tags.getD [], ingredients := p.ingredients.getD [] }
    Except.ok ({ db with recipes := db.recipes ++ [r], nextId := db.nextId + 1 }, r)
  else
    Except.error ApiError.validationFailure

/-- Modelled from the spec and the repository's own test: full update (PUT) of
a recipe (serializers module not under the provided sources). The target row is
looked up inside the ownership-filtered queryset; all serializer fields are
overwritten; a many-to-many field absent from a full-update payload is treated
as the empty list, which is the behaviour the repository's test
`test_full_update_recipe` asserts (`len(tags) == 0` after a PUT whose payload
has no tags field). The owner is never touched. -/
def RecipeViewSet.update (db : Db) (request_user : Nat) (rid : Nat) (p : RecipePayload) :
    Except ApiError Db :=
  match (RecipeViewSet.get_queryset db request_user).find? (fun r => r.id == rid) with
  | none => Except.error ApiError.notFound
  | some _ =>
    if validRecipePayload db p then
      Except.ok { db with recipes := db.recipes.map (fun r =>
        if r.id == rid && r.user == request_user then
          { r with title := p.title, time_minutes := p.time_minutes, price := p.price,
                   link := p.link, tags := p.tags.getD [],
                   ingredients := p.ingredients.getD [] }
        else r) }
    else Except.error ApiError.validationFailure

/-- Modelled from the spec: PATCH of a recipe (§4.2, serializers module not
under the provided sources) — only fields present in the body are modified; a
present `tags`/`ingredients` field replaces the association set wholesale; the
owner is never touched. This matches the repository's test
`test_partial_update_recipe`. -/
def RecipeViewSet.patch (db : Db) (request_user : Nat) (rid : Nat) (p : RecipePatch) :
    Except ApiError Db :=
  match (RecipeViewSet.get_queryset db request_user).find? (fun r => r.id == rid) with
  | none => Except.error ApiError.notFound
  | some _ =>
    if validRecipePatch db p then
      Except.ok { db with recipes := db.recipes.map (fun r =>
        if r.id == rid && r.user == request_user then
          { r with title := p.title.getD r.title,
                   time_minutes := p.time_minutes.getD r.time_minutes,
                   price := p.price.getD r.price,
                   link := match p.link with | some l => some l | none => r.link,
                   tags := p.tags.getD r.tags,
                   ingredients := p.ingredients.getD r.ingredients }
        else r) }
    else Except.error ApiError.validationFailure

/-- Modelled from the spec: extension extraction of the image path namer
(§4.3, `recipe/models.py` not under the provided sources) — the extension is
the segment after the last dot of the original filename, when the filename
contains a dot at all. -/
def fileExt (filename : String) : Option String :=
  if filename.data.contains '.' then
    some (String.mk ((filename.data.reverse.takeWhile (fun c => c != '.')).reverse))
  else none

/-- Modelled from the spec: `recipe_image_file_path` of `recipe/models.py`
(not under the provided sources, §4.3) — the base name is discarded and
replaced by a freshly generated unique token (uuid4 in canonical string form),
the extension, when present, is kept; with no extension the produced path has
no extension segment. Token generation is modelled by passing the freshly drawn
token explicitly; spec §4.3 guarantees distinct draws on distinct calls. -/
def recipe_image_file_path (token : String) (filename : String) : String :=
  match fileExt filename with
  | some ext => "uploads/recipe/" ++ token ++ "." ++ ext
  | none => "uploads/recipe/" ++ token

deriving instance DecidableEq for Except

/-- A sample tag owned by user 1, used to instantiate the theorems below. -/
def sampleTag1 : Tag := { id := 1, user := 1, name := "Vegan" }

/-- A sample tag owned by user 2. -/
def sampleTag2 : Tag := { id := 2, user := 2, name := "Dessert" }

/-- A sample ingredient owned by user 1. -/
def sampleIngredient1 : Ingredient := { id := 1, user := 1, name := "Prawns" }

/-- A sample ingredient owned by user 2. -/
def sampleIngredient2 : Ingredient := { id := 2, user := 2, name := "Cucumber" }

/-- A sample recipe owned by user 1, associated with tag 1 and ingredient 1. -/
def sampleRecipe1 : Recipe :=
  { id := 1, user := 1, title := "Sample Recipe", time_minutes := 10, price := 500,
    link := none, image := none, tags := [1], ingredients := [1] }

/-- A sample recipe owned by user 2. -/
def sampleRecipe2 : Recipe :=
  { id := 2, user := 2, title := "Other Recipe", time_minutes := 10, price := 500,
    link := none, image := none, tags := [2], ingredients := [] }

/-- A sample store holding rows of two distinct users. -/
def sampleDb : Db :=
  { tags := [sampleTag1, sampleTag2],
    ingredients := [sampleIngredient1, sampleIngredient2],
    recipes := [sampleRecipe1, sampleRecipe2], nextId := 10 }

theorem insertLe_perm {α : Type} (le : α → α → Bool) (a : α) :
    ∀ l : List α, (insertLe le a l).Perm (a :: l)
  | [] => List.Perm.refl _
  | b :: bs => by
    by_cases h : le a b
    · rw [insertLe, if_pos h]
    · rw [insertLe, if_neg h]
      exact (List.Perm.cons b (insertLe_perm le a bs)).trans (List.Perm.swap a b bs)

theorem sortLe_perm {α : Type} (le : α → α → Bool) :
    ∀ l : List α, (sortLe le l).Perm l
  | [] => List.Perm.refl _
  | a :: as => (insertLe_perm le a (sortLe le as)).trans ((sortLe_perm le as).cons a)

theorem insertLe_pairwise {α : Type} {le : α → α → Bool}
    (htrans : ∀ x y z, le x y = true → le y z = true → le x z = true)
    (htotal : ∀ x y, (le x y || le y x) = true) (a : α) :
    ∀ l : List α, l.Pairwise (fun x y => le x y = true) →
      (insertLe le a l).Pairwise (fun x y => le x y = true)
  | [], _ => by simp [insertLe]
  | b :: bs, hp => by
    rcases List.pairwise_cons.mp hp with ⟨hb, hbs⟩
    by_cases h : le a b
    · rw [insertLe, if_pos h]
      refine List.pairwise_cons.mpr ⟨?_, hp⟩
      intro x hx
      rcases List.mem_cons.mp hx with rfl | hx
      · exact h
      · exact htrans a b x h (hb x hx)
    · rw [insertLe, if_neg h]
      have hba : le b a = true := by
        cases hab : le a b with
        | true => exact absurd hab h
        | false =>
          have ht := htotal a b
          rw [hab] at ht
          simpa using ht
      refine List.pairwise_cons.mpr ⟨?_, insertLe_pairwise htrans htotal a bs hbs⟩
      intro x hx
      have hx' : x = a ∨ x ∈ bs := by
        have hm := (insertLe_perm le a bs).mem_iff.mp hx
        simpa using hm
      rcases hx' with rfl | hx'
      · exact hba
      · exact hb x hx'

theorem sortLe_pairwise {α : Type} {le : α → α → Bool}
    (htrans : ∀ x y z, le x y = true → le y z = true → le x z = true)
    (htotal : ∀ x y, (le x y || le y x) = true) :
    ∀ l : List α, (sortLe le l).Pairwise (fun x y => le x y = true)
  | [] => List.Pairwise.nil
  | a :: as => insertLe_pairwise htrans htotal a (sortLe le as)
      (sortLe_pairwise htrans htotal as)

theorem lexLe_total : ∀ as bs : List Char, (lexLe as bs || lexLe bs as) = true
  | [], [] => rfl
  | [], _ :: _ => rfl
  | _ :: _, [] => rfl
  | a :: as, b :: bs => by
    rcases lt_trichotomy a b with h | h | h
    · simp [lexLe, h]
    · subst h
      simp only [lexLe, lt_irrefl, if_false]
      exact lexLe_total as bs
    · simp [lexLe, h, asymm h]

theorem lexLe_trans : ∀ as bs cs : List Char,
    lexLe as bs = true → lexLe bs cs = true → lexLe as cs = true
  | [], _, _ => fun _ _ => rfl
  | _ :: _, [], _ => fun h _ => by simp [lexLe] at h
  | _ :: _, _ :: _, [] => fun _ h => by simp [lexLe] at h
  | a :: as, b :: bs, c :: cs => fun h1 h2 => by
    rcases lt_trichotomy a b with hab | hab | hab
    · rcases lt_trichotomy b c with hbc | hbc | hbc
      · simp [lexLe, lt_trans hab hbc]
      · subst hbc; simp [lexLe, hab]
      · simp [lexLe, hbc, asymm hbc] at h2
    · subst hab
      rcases lt_trichotomy a c with hbc | hbc | hbc
      · simp [lexLe, hbc]
      · subst hbc
        simp only [lexLe, lt_irrefl, if_false] at h1 h2 ⊢
        exact lexLe_trans as bs cs h1 h2
      · simp [lexLe, hbc, asymm hbc] at h2
    · simp [lexLe, hab, asymm hab] at h1

theorem strLe_trans (a b c : String) (h1 : strLe a b = true) (h2 : strLe b c = true) :
    strLe a c = true := lexLe_trans a.data b.data c.data h1 h2

theorem strLe_total (a b : String) : (strLe a b || strLe b a) = true :=
  lexLe_total a.data b.data

theorem mem_tag_queryset {db : Db} {u : Nat} {t : Tag} :
    t ∈ TagViewSet.get_queryset db u ↔ t ∈ db.tags ∧ t.user = u := by
  unfold TagViewSet.get_queryset
  rw [List.Perm.mem_iff (sortLe_perm _ _), List.mem_filter]
  simp

theorem mem_ingredient_queryset {db : Db} {u : Nat} {i : Ingredient} :
    i ∈ IngredientViewSet.get_queryset db u ↔ i ∈ db.ingredients ∧ i.user = u := by
  unfold IngredientViewSet.get_queryset
  rw [List.Perm.mem_iff (sortLe_perm _ _), List.mem_filter]
  simp

theorem mem_recipe_queryset {db : Db} {u : Nat} {r : Recipe} :
    r ∈ RecipeViewSet.get_queryset db u ↔ r ∈ db.recipes ∧ r.user = u := by
  unfold RecipeViewSet.get_queryset
  rw [List.Perm.mem_iff (sortLe_perm _ _), List.mem_filter]
  simp

theorem update_ok_recipes {db : Db} {u rid : Nat} {p : RecipePayload} {db' : Db}
    (h : RecipeViewSet.update db u rid p = Except.ok db') :
    db'.recipes = db.recipes.map (fun r =>
      if r.id == rid && r.user == u then
        { r with title := p.title, time_minutes := p.time_minutes, price := p.price,
                 link := p.link, tags := p.tags.getD [],
                 ingredients := p.ingredients.getD [] }
      else r) := by
  unfold RecipeViewSet.update at h
  cases hf : (RecipeViewSet.get_queryset db u).find? (fun r => r.id == rid) with
  | none => rw [hf] at h; exact Except.noConfusion h
  | some r0 =>
    rw [hf] at h
    by_cases hv : validRecipePayload db p
    · rw [if_pos hv] at h
      cases h
      rfl
    · rw [if_neg hv] at h; exact Except.noConfusion h

theorem patch_ok_recipes {db : Db} {u rid : Nat} {p : RecipePatch} {db' : Db}
    (h : RecipeViewSet.patch db u rid p = Except.ok db') :
    db'.recipes = db.recipes.map (fun r =>
      if r.id == rid && r.user == u then
        { r with title := p.title.getD r.title,
                 time_minutes := p.time_minutes.getD r.time_minutes,
                 price := p.price.getD r.price,
                 link := match p.link with | some l => some l | none => r.link,
                 tags := p.tags.getD r.tags,
                 ingredients := p.ingredients.getD r.ingredients }
      else r) := by
  unfold RecipeViewSet.patch at h
  cases hf : (RecipeViewSet.get_queryset db u).find? (fun r => r.id == rid) with
  | none => rw [hf] at h; exact Except.noConfusion h
  | some r0 =>
    rw [hf] at h
    by_cases hv : validRecipePatch db p
    · rw [if_pos hv] at h
      cases h
      rfl
    · rw [if_neg hv] at h; exact Except.noConfusion h

/-- The model reproduces the repository's test `test_recipe_file_name_uuid`
(`src/app/core/tests/recipe/test_models.py` lines 34-42): with uuid4 mocked to
the token `test-uuid` and input `my image.jpeg`, the produced path is
`uploads/recipe/test-uuid.jpeg`. -/
theorem recipe_image_file_path_matches_test :
    recipe_image_file_path "test-uuid" "my image.jpeg" = "uploads/recipe/test-uuid.jpeg" := by
  decide

/-- C1: For every user and every entity type (Tag, Ingredient, Recipe), a
listing performed as that user returns exactly the rows whose owner equals
that user — membership in the listing is equivalent to being a stored row
owned by the caller, so every caller-owned row appears and a row owned by any
different user never appears. A detail fetch returns only stored rows owned by
the caller, and the detail fetch of any caller-owned row with an unambiguous
id succeeds with exactly that row. -/
theorem claim_C1_ownership_scoped_visibility (db : Db) (u v : Nat) :
    (∀ t : Tag, t ∈ TagViewSet.get_queryset db u ↔ t ∈ db.tags ∧ t.user = u) ∧
    (∀ i : Ingredient,
      i ∈ IngredientViewSet.get_queryset db u ↔ i ∈ db.ingredients ∧ i.user = u) ∧
    (∀ r : Recipe, r ∈ RecipeViewSet.get_queryset db u ↔ r ∈ db.recipes ∧ r.user = u) ∧
    (∀ rid r, RecipeViewSet.retrieve db u rid = Except.ok r →
      r ∈ db.recipes ∧ r.user = u) ∧
    (∀ r ∈ db.recipes, r.user = u →
      (∀ r2 ∈ db.recipes, r2.id = r.id → r2 = r) →
      RecipeViewSet.retrieve db u r.id = Except.ok r) ∧
    (v ≠ u →
      (∀ t : Tag, t.user = v → t ∉ TagViewSet.get_queryset db u) ∧
      (∀ i : Ingredient, i.user = v → i ∉ IngredientViewSet.get_queryset db u) ∧
      (∀ r : Recipe, r.user = v → r ∉ RecipeViewSet.get_queryset db u)) := by
  refine ⟨fun t => mem_tag_queryset, fun i => mem_ingredient_queryset,
    fun r => mem_recipe_queryset, ?_, ?_, ?_⟩
  · intro rid r h
    unfold RecipeViewSet.retrieve at h
    cases hf : (RecipeViewSet.get_queryset db u).find? (fun r => r.id == rid) with
    | none => rw [hf] at h; exact Except.noConfusion h
    | some r0 =>
      rw [hf] at h
      cases h
      exact mem_recipe_queryset.mp (List.mem_of_find?_eq_some hf)
  · intro r hr hu huniq
    have hrq : r ∈ RecipeViewSet.get_queryset db u := mem_recipe_queryset.mpr ⟨hr, hu⟩
    cases hf : (RecipeViewSet.get_queryset db u).find? (fun r2 => r2.id == r.id) with
    | none =>
      exact absurd (beq_iff_eq.mpr rfl) (List.find?_eq_none.mp hf r hrq)
    | some x =>
      have hpx : x.id = r.id := by
        have hb := List.find?_some hf
        simpa using hb
      have hx : x = r := huniq x
        (mem_recipe_queryset.mp (List.mem_of_find?_eq_some hf)).1 hpx
      unfold RecipeViewSet.retrieve
      rw [hf, hx]
  · intro hvu
    refine ⟨fun t ht hmem => hvu (ht.symm.trans (mem_tag_queryset.mp hmem).2),
      fun i hi hmem => hvu (hi.symm.trans (mem_ingredient_queryset.mp hmem).2),
      fun r hr hmem => hvu (hr.symm.trans (mem_recipe_queryset.mp hmem).2)⟩

/-- Witness for C1 at the concrete sample store: each caller-owned sample row
does appear in user 1's listing (completeness), the detail fetch of user 1's
recipe succeeds with exactly that recipe, and every sample row of user 2 is
excluded from user 1's results. -/
theorem claim_C1_witness :
    (sampleTag1 ∈ sampleDb.tags ∧ sampleTag1.user = 1) ∧
    sampleTag1 ∈ TagViewSet.get_queryset sampleDb 1 ∧
    (sampleIngredient1 ∈ sampleDb.ingredients ∧ sampleIngredient1.user = 1) ∧
    sampleIngredient1 ∈ IngredientViewSet.get_queryset sampleDb 1 ∧
    (sampleRecipe1 ∈ sampleDb.recipes ∧ sampleRecipe1.user = 1) ∧
    sampleRecipe1 ∈ RecipeViewSet.get_queryset sampleDb 1 ∧
    RecipeViewSet.retrieve sampleDb 1 1 = Except.ok sampleRecipe1 ∧
    sampleRecipe1 ∈ sampleDb.recipes ∧ sampleRecipe1.user = 1 ∧
    ((2 : Nat) ≠ 1 ∧
      sampleTag2.user = 2 ∧ sampleTag2 ∉ TagViewSet.get_queryset sampleDb 1 ∧
      sampleIngredient2.user = 2 ∧
      sampleIngredient2 ∉ IngredientViewSet.get_queryset sampleDb 1 ∧
      sampleRecipe2.user = 2 ∧ sampleRecipe2 ∉ RecipeViewSet.get_queryset sampleDb 1) := by
  have h := claim_C1_ownership_scoped_visibility sampleDb 1 2
  refine ⟨⟨by decide, by decide⟩,
    (h.1 sampleTag1).mpr ⟨by decide, by decide⟩,
    ⟨by decide, by decide⟩,
    (h.2.1 sampleIngredient1).mpr ⟨by decide, by decide⟩,
    ⟨by decide, by decide⟩,
    (h.2.2.1 sampleRecipe1).mpr ⟨by decide, by decide⟩,
    h.2.2.2.2.1 sampleRecipe1 (by decide) (by decide) (by decide),
    (h.2.2.2.1 1 sampleRecipe1
      (h.2.2.2.2.1 sampleRecipe1 (by decide) (by decide) (by decide))).1,
    (h.2.2.2.1 1 sampleRecipe1
      (h.2.2.2.2.1 sampleRecipe1 (by decide) (by decide) (by decide))).2,
    by decide,
    by decide, (h.2.2.2.2.2 (by decide)).1 sampleTag2 (by decide),
    by decide, (h.2.2.2.2.2 (by decide)).2.1 sampleIngredient2 (by decide),
    by decide, (h.2.2.2.2.2 (by decide)).2.2 sampleRecipe2 (by decide)⟩

/-- C7: For every Tag and Ingredient listing, the returned rows are ordered by
the name attribute in descending order, and the listing is a permutation of
the ownership-filtered rows. -/
theorem claim_C7_attr_listings_ordered_name_desc (db : Db) (u : Nat) :
    (TagViewSet.get_queryset db u).Pairwise (fun a b => strLe b.name a.name = true) ∧
    (IngredientViewSet.get_queryset db u).Pairwise
      (fun a b => strLe b.name a.name = true) ∧
    (TagViewSet.get_queryset db u).Perm (db.tags.filter (fun t => t.user == u)) ∧
    (IngredientViewSet.get_queryset db u).Perm
      (db.ingredients.filter (fun i => i.user == u)) := by
  refine ⟨?_, ?_, sortLe_perm _ _, sortLe_perm _ _⟩
  · exact sortLe_pairwise
      (fun x y z h1 h2 => strLe_trans z.name y.name x.name h2 h1)
      (fun x y => strLe_total y.name x.name) _
  · exact sortLe_pairwise
      (fun x y z h1 h2 => strLe_trans z.name y.name x.name h2 h1)
      (fun x y => strLe_total y.name x.name) _

theorem map_pair_id_user (f : Recipe → Recipe)
    (hf : ∀ r, (f r).id = r.id ∧ (f r).user = r.user) :
    ∀ l : List Recipe,
      (l.map f).map (fun r => (r.id, r.user)) = l.map (fun r => (r.id, r.user))
  | [] => rfl
  | a :: l => by
    simp only [List.map_cons, List.cons.injEq]
    exact ⟨by rw [(hf a).1, (hf a).2], map_pair_id_user f hf l⟩

/-- C2: Every create operation on Tag, Ingredient, or Recipe stamps the acting
caller as the owner of the new row — even when the input payload supplies an
owner value, which is ignored — and no update operation changes any row's
owner (or id). -/
theorem claim_C2_owner_stamped_and_immutable (db : Db) (u : Nat) (pa : AttrPayload)
    (pr : RecipePayload) (pp : RecipePatch) (rid : Nat) :
    (TagViewSet.perform_create db u pa).2.user = u ∧
    (IngredientViewSet.perform_create db u pa).2.user = u ∧
    (∀ db' r, RecipeViewSet.create db u pr = Except.ok (db', r) → r.user = u) ∧
    (∀ db', RecipeViewSet.update db u rid pr = Except.ok db' →
      db'.recipes.map (fun r => (r.id, r.user)) =
        db.recipes.map (fun r => (r.id, r.user))) ∧
    (∀ db', RecipeViewSet.patch db u rid pp = Except.ok db' →
      db'.recipes.map (fun r => (r.id, r.user)) =
        db.recipes.map (fun r => (r.id, r.user))) := by
  refine ⟨rfl, rfl, ?_, ?_, ?_⟩
  · intro db' r h
    unfold RecipeViewSet.create at h
    by_cases hv : validRecipePayload db pr
    · rw [if_pos hv] at h
      rw [Except.ok.injEq, Prod.mk.injEq] at h
      obtain ⟨hdb, hr⟩ := h
      subst hr
      rfl
    · rw [if_neg hv] at h; exact Except.noConfusion h
  · intro db' h
    rw [update_ok_recipes h]
    apply map_pair_id_user
    intro r
    by_cases hc : (r.id == rid && r.user == u) = true
    · rw [if_pos hc]; exact ⟨rfl, rfl⟩
    · rw [if_neg hc]; exact ⟨rfl, rfl⟩
  · intro db' h
    rw [patch_ok_recipes h]
    apply map_pair_id_user
    intro r
    by_cases hc : (r.id == rid && r.user == u) = true
    · rw [if_pos hc]; exact ⟨rfl, rfl⟩
    · rw [if_neg hc]; exact ⟨rfl, rfl⟩

/-- Payload used to instantiate create/update theorems; note it carries a
caller-supplied owner value (user 2) that must be ignored. -/
def sampleCreatePayload : RecipePayload :=
  { title := "Chocolate cheesecake", time_minutes := 30, price := 500, link := none,
    tags := some [1, 2], ingredients := some [1, 2], user := some 2 }

/-- The recipe that `RecipeViewSet.create sampleDb 1 sampleCreatePayload`
produces. -/
def sampleCreatedRecipe : Recipe :=
  { id := 10, user := 1, title := "Chocolate cheesecake", time_minutes := 30,
    price := 500, link := none, image := none, tags := [1, 2], ingredients := [1, 2] }

/-- The store after `RecipeViewSet.create sampleDb 1 sampleCreatePayload`. -/
def sampleDbAfterCreate : Db :=
  { tags := [sampleTag1, sampleTag2],
    ingredients := [sampleIngredient1, sampleIngredient2],
    recipes := [sampleRecipe1, sampleRecipe2, sampleCreatedRecipe], nextId := 11 }

/-- Witness for C2 at concrete inputs: a tag created as user 1 with a payload
naming user 2 is owned by user 1, and so is a recipe created from a payload
naming user 2. -/
theorem claim_C2_witness :
    (TagViewSet.perform_create sampleDb 1
      { name := "Curry", user := some 2 }).2.user = 1 ∧
    (IngredientViewSet.perform_create sampleDb 1
      { name := "Salt", user := some 2 }).2.user = 1 ∧
    RecipeViewSet.create sampleDb 1 sampleCreatePayload =
      Except.ok (sampleDbAfterCreate, sampleCreatedRecipe) ∧
    sampleCreatedRecipe.user = 1 := by
  have h := claim_C2_owner_stamped_and_immutable sampleDb 1
    { name := "Curry", user := some 2 } sampleCreatePayload
    { title := none, time_minutes := none, price := none, link := none,
      tags := none, ingredients := none, user := none } 1
  exact ⟨h.1, by decide, by decide,
    h.2.2.1 sampleDbAfterCreate sampleCreatedRecipe (by decide)⟩

/-- C4: For every recipe created with a list of tag ids T and a list of
ingredient ids I, immediately after creation the recipe's associated tag set
equals the set T and its associated ingredient set equals the set I
(membership equality). -/
theorem claim_C4_create_associations_exact (db : Db) (u : Nat) (p : RecipePayload)
    (T I : List Nat) (db' : Db) (r : Recipe)
    (hT : p.tags = some T) (hI : p.ingredients = some I)
    (h : RecipeViewSet.create db u p = Except.ok (db', r)) :
    (∀ x, x ∈ r.tags ↔ x ∈ T) ∧ (∀ x, x ∈ r.ingredients ↔ x ∈ I) := by
  unfold RecipeViewSet.create at h
  by_cases hv : validRecipePayload db p
  · rw [if_pos hv] at h
    rw [Except.ok.injEq, Prod.mk.injEq] at h
    obtain ⟨hdb, hr⟩ := h
    subst hr
    constructor <;> intro x <;> simp [hT, hI]
  · rw [if_neg hv] at h; exact Except.noConfusion h

/-- Witness for C4: the concrete create above yields associated tags exactly
the requested set [1, 2] (here 2 ∈ tags and 3 ∉ tags) and likewise for
ingredients. -/
theorem claim_C4_witness :
    sampleCreatePayload.tags = some [1, 2] ∧
    sampleCreatePayload.ingredients = some [1, 2] ∧
    (2 ∈ sampleCreatedRecipe.tags ↔ 2 ∈ [1, 2]) ∧
    (3 ∈ sampleCreatedRecipe.ingredients ↔ 3 ∈ [1, 2]) := by
  have h := claim_C4_create_associations_exact sampleDb 1 sampleCreatePayload
    [1, 2] [1, 2] sampleDbAfterCreate sampleCreatedRecipe rfl rfl (by decide)
  exact ⟨rfl, rfl, h.1 2, h.2 3⟩

/-- C5: A create-recipe request whose payload references a nonexistent tag or
ingredient id fails with a validation error, and no recipe row is persisted
(the operation yields no successor state at all: all-or-nothing). -/
theorem claim_C5_create_unknown_id_rejected (db : Db) (u : Nat) (p : RecipePayload)
    (h : (∃ i ∈ p.tags.getD [], ∀ t ∈ db.tags, t.id ≠ i) ∨
         (∃ i ∈ p.ingredients.getD [], ∀ g ∈ db.ingredients, g.id ≠ i)) :
    RecipeViewSet.create db u p = Except.error ApiError.validationFailure ∧
    ∀ db' r, RecipeViewSet.create db u p ≠ Except.ok (db', r) := by
  have hv : validRecipePayload db p = false := by
    unfold validRecipePayload
    rcases h with ⟨i, hi, hall⟩ | ⟨i, hi, hall⟩
    · have hfalse : validTagIds db (p.tags.getD []) = false := by
        unfold validTagIds
        rw [List.all_eq_false]
        refine ⟨i, hi, fun hc => ?_⟩
        rcases List.any_eq_true.mp hc with ⟨t, ht, hti⟩
        exact hall t ht (beq_iff_eq.mp hti)
      simp [hfalse]
    · have hfalse : validIngredientIds db (p.ingredients.getD []) = false := by
        unfold validIngredientIds
        rw [List.all_eq_false]
        refine ⟨i, hi, fun hc => ?_⟩
        rcases List.any_eq_true.mp hc with ⟨g, hg, hgi⟩
        exact hall g hg (beq_iff_eq.mp hgi)
      simp [hfalse]
  have hcreate : RecipeViewSet.create db u p = Except.error ApiError.validationFailure := by
    unfold RecipeViewSet.create
    rw [if_neg (by simp [hv])]
  exact ⟨hcreate, fun db' r hc => by rw [hcreate] at hc; exact Except.noConfusion hc⟩

/-- Payload referencing the nonexistent tag id 99, used to instantiate C5. -/
def badCreatePayload : RecipePayload :=
  { title := "Chocolate cheesecake", time_minutes := 30, price := 500, link := none,
    tags := some [99], ingredients := none, user := none }

/-- Witness for C5: creating with the unknown tag id 99 against the sample
store fails with a validation error. -/
theorem claim_C5_witness :
    RecipeViewSet.create sampleDb 1 badCreatePayload =
      Except.error ApiError.validationFailure :=
  (claim_C5_create_unknown_id_rejected sampleDb 1 badCreatePayload
    (Or.inl (by decide))).1

/-- C6: A direct-id fetch of a recipe that does not exist, or that is owned by
a different user, yields the not-found outcome and never the permission-denied
outcome; the two cases produce the identical response. -/
theorem claim_C6_cross_owner_fetch_is_not_found (db : Db) (u rid : Nat)
    (h : ∀ r ∈ db.recipes, r.id = rid → r.user ≠ u) :
    RecipeViewSet.retrieve db u rid = Except.error ApiError.notFound ∧
    RecipeViewSet.retrieve db u rid ≠ Except.error ApiError.permissionDenied := by
  have hnone : (RecipeViewSet.get_queryset db u).find? (fun r => r.id == rid) = none := by
    rw [List.find?_eq_none]
    intro r hr hid
    have hm := mem_recipe_queryset.mp hr
    exact h r hm.1 (beq_iff_eq.mp hid) hm.2
  have hret : RecipeViewSet.retrieve db u rid = Except.error ApiError.notFound := by
    unfold RecipeViewSet.retrieve
    rw [hnone]
  exact ⟨hret, by rw [hret]; simp⟩

/-- Witness for C6 at concrete inputs: fetching recipe id 2 (owned by user 2)
as user 1 and fetching the nonexistent id 99 as user 1 both yield exactly the
not-found outcome. -/
theorem claim_C6_witness :
    RecipeViewSet.retrieve sampleDb 1 2 = Except.error ApiError.notFound ∧
    RecipeViewSet.retrieve sampleDb 1 2 ≠ Except.error ApiError.permissionDenied ∧
    RecipeViewSet.retrieve sampleDb 1 99 = Except.error ApiError.notFound := by
  have h2 := claim_C6_cross_owner_fetch_is_not_found sampleDb 1 2 (by decide)
  exact ⟨h2.1, h2.2, by decide⟩

/-- Full-update payload whose tags and ingredients fields are entirely absent,
mirroring the payload of the repository's test `test_full_update_recipe`. -/
def putPayloadNoTags : RecipePayload :=
  { title := "Chicken tikka", time_minutes := 25, price := 500, link := none,
    tags := none, ingredients := none, user := none }

/-- Recipe 1 after the full update with `putPayloadNoTags`: the tag and
ingredient associations are cleared. -/
def sampleRecipe1AfterPut : Recipe :=
  { id := 1, user := 1, title := "Chicken tikka", time_minutes := 25, price := 500,
    link := none, image := none, tags := [], ingredients := [] }

/-- The store after `RecipeViewSet.update sampleDb 1 1 putPayloadNoTags`. -/
def sampleDbAfterPut : Db :=
  { tags := [sampleTag1, sampleTag2],
    ingredients := [sampleIngredient1, sampleIngredient2],
    recipes := [sampleRecipe1AfterPut, sampleRecipe2], nextId := 10 }

/-- Counterexample to C3 as stated: recipe 1 of the sample store has tag
association set [1] and ingredient association set [1]; a full update whose
payload entirely omits both fields succeeds and leaves the recipe with empty
association sets — the associations are not left unchanged. This is exactly the
behaviour the repository's own test `test_full_update_recipe` asserts
(`len(tags) == 0` after the PUT). -/
theorem claim_C3_counterexample :
    (sampleDb.recipes.find? (fun r => r.id == 1)).map Recipe.tags = some [1] ∧
    (sampleDb.recipes.find? (fun r => r.id == 1)).map Recipe.ingredients = some [1] ∧
    putPayloadNoTags.tags = none ∧
    putPayloadNoTags.ingredients = none ∧
    RecipeViewSet.update sampleDb 1 1 putPayloadNoTags = Except.ok sampleDbAfterPut ∧
    (sampleDbAfterPut.recipes.find? (fun r => r.id == 1)).map Recipe.tags = some [] ∧
    (sampleDbAfterPut.recipes.find? (fun r => r.id == 1)).map Recipe.ingredients =
      some [] := by
  decide

/-- C3 amended: for every existing recipe, a full update (PUT) whose payload
entirely omits the tags field removes all of the recipe's tag associations
(the absent field is treated as an empty list); the same holds independently
for the ingredients field. -/
theorem claim_C3_amended_put_absent_field_clears (db : Db) (u rid : Nat)
    (p : RecipePayload) (db' : Db)
    (h : RecipeViewSet.update db u rid p = Except.ok db') :
    ∀ r' ∈ db'.recipes, r'.id = rid → r'.user = u →
      (p.tags = none → r'.tags = []) ∧ (p.ingredients = none → r'.ingredients = []) := by
  intro r' hr' hid huser
  rw [update_ok_recipes h] at hr'
  rcases List.mem_map.mp hr' with ⟨r, hr, hfr⟩
  by_cases hc : (r.id == rid && r.user == u) = true
  · rw [if_pos hc] at hfr
    subst hfr
    exact ⟨fun ht => by simp [ht], fun hi => by simp [hi]⟩
  · rw [if_neg hc] at hfr
    subst hfr
    exact absurd (by simp [hid, huser]) hc

/-- Witness for the amended C3 at the concrete store: after the PUT with no
tags/ingredients fields, recipe 1's associations are both empty. -/
theorem claim_C3_amended_witness :
    sampleRecipe1AfterPut.tags = [] ∧ sampleRecipe1AfterPut.ingredients = [] := by
  have h := claim_C3_amended_put_absent_field_clears sampleDb 1 1 putPayloadNoTags
    sampleDbAfterPut (by decide) sampleRecipe1AfterPut (by decide) (by decide) (by decide)
  exact ⟨h.1 rfl, h.2 rfl⟩

/-- C10: For every existing recipe, a PATCH whose payload includes a tags field
with a list of tag ids replaces the recipe's tag association set wholesale:
afterward the associated tags are exactly the listed ids. -/
theorem claim_C10_patch_replaces_tags_wholesale (db : Db) (u rid : Nat)
    (p : RecipePatch) (L : List Nat) (db' : Db) (hL : p.tags = some L)
    (h : RecipeViewSet.patch db u rid p = Except.ok db') :
    ∀ r' ∈ db'.recipes, r'.id = rid → r'.user = u → r'.tags = L := by
  intro r' hr' hid huser
  rw [patch_ok_recipes h] at hr'
  rcases List.mem_map.mp hr' with ⟨r, hr, hfr⟩
  by_cases hc : (r.id == rid && r.user == u) = true
  · rw [if_pos hc] at hfr
    subst hfr
    simp [hL]
  · rw [if_neg hc] at hfr
    subst hfr
    exact absurd (by simp [hid, huser]) hc

/-- PATCH payload mirroring `test_partial_update_recipe`: a new title and a
tags field listing a single replacement tag id. -/
def patchPayload : RecipePatch :=
  { title := some "Chicken tikka", time_minutes := none, price := none, link := none,
    tags := some [2], ingredients := none, user := none }

/-- Recipe 1 after `RecipeViewSet.patch sampleDb 1 1 patchPayload`: the title
changed, the tag set was replaced wholesale by [2], everything else kept. -/
def sampleRecipe1AfterPatch : Recipe :=
  { id := 1, user := 1, title := "Chicken tikka", time_minutes := 10, price := 500,
    link := none, image := none, tags := [2], ingredients := [1] }

/-- The store after `RecipeViewSet.patch sampleDb 1 1 patchPayload`. -/
def sampleDbAfterPatch : Db :=
  { tags := [sampleTag1, sampleTag2],
    ingredients := [sampleIngredient1, sampleIngredient2],
    recipes := [sampleRecipe1AfterPatch, sampleRecipe2], nextId := 10 }

/-- Witness for C10 at the concrete store: recipe 1 started with tag set [1];
after a PATCH listing tag ids [2] its tag set is exactly [2] — the previously
associated tag 1 is gone. -/
theorem claim_C10_witness :
    patchPayload.tags = some [2] ∧
    RecipeViewSet.patch sampleDb 1 1 patchPayload = Except.ok sampleDbAfterPatch ∧
    sampleRecipe1AfterPatch.tags = [2] := by
  refine ⟨rfl, by decide, ?_⟩
  exact claim_C10_patch_replaces_tags_wholesale sampleDb 1 1 patchPayload [2]
    sampleDbAfterPatch rfl (by decide) sampleRecipe1AfterPatch (by decide)
    (by decide) (by decide)

/-- C8: For every input filename with an extension, the image path namer
produces a path of the form `uploads/recipe/<token>.<extension>`; two calls
that draw distinct fresh tokens on the same input filename produce two
different paths, and both end in the original extension. -/
theorem claim_C8_image_path_form_and_freshness (filename ext t1 t2 : String)
    (hext : fileExt filename = some ext) (hne : t1 ≠ t2) :
    recipe_image_file_path t1 filename = "uploads/recipe/" ++ t1 ++ "." ++ ext ∧
    recipe_image_file_path t1 filename ≠ recipe_image_file_path t2 filename ∧
    List.IsSuffix ("." ++ ext).data (recipe_image_file_path t1 filename).data ∧
    List.IsSuffix ("." ++ ext).data (recipe_image_file_path t2 filename).data := by
  have h1 : recipe_image_file_path t1 filename = "uploads/recipe/" ++ t1 ++ "." ++ ext := by
    unfold recipe_image_file_path
    rw [hext]
  have h2 : recipe_image_file_path t2 filename = "uploads/recipe/" ++ t2 ++ "." ++ ext := by
    unfold recipe_image_file_path
    rw [hext]
  refine ⟨h1, ?_, ?_, ?_⟩
  · rw [h1, h2]
    intro heq
    apply hne
    have hdata := congrArg String.data heq
    simp only [String.data_append, List.append_assoc] at hdata
    exact String.ext (List.append_cancel_right (List.append_cancel_left hdata))
  · rw [h1]
    exact ⟨("uploads/recipe/" ++ t1).data, by
      simp [String.data_append, List.append_assoc]⟩
  · rw [h2]
    exact ⟨("uploads/recipe/" ++ t2).data, by
      simp [String.data_append, List.append_assoc]⟩

/-- Witness for C8 at the test's concrete input: `my image.jpeg` has extension
`jpeg`, and two distinct tokens yield two distinct paths. -/
theorem claim_C8_witness :
    fileExt "my image.jpeg" = some "jpeg" ∧
    ("test-uuid" : String) ≠ "other-uuid" ∧
    recipe_image_file_path "test-uuid" "my image.jpeg" =
      "uploads/recipe/" ++ "test-uuid" ++ "." ++ "jpeg" ∧
    recipe_image_file_path "test-uuid" "my image.jpeg" ≠
      recipe_image_file_path "other-uuid" "my image.jpeg" := by
  have h := claim_C8_image_path_form_and_freshness "my image.jpeg" "jpeg"
    "test-uuid" "other-uuid" (by decide) (by decide)
  exact ⟨by decide, by decide, h.1, h.2.1⟩

/-- C9: For every input filename containing no dot, the image path namer
produces a path with no extension segment (the path is just the upload folder
plus the bare token) and no trailing dot. The token is a canonical uuid4
string, which contains no dot. -/
theorem claim_C9_no_extension_no_trailing_dot (filename token : String)
    (hfile : ('.' : Char) ∉ filename.data) (htok : ('.' : Char) ∉ token.data) :
    recipe_image_file_path token filename = "uploads/recipe/" ++ token ∧
    (recipe_image_file_path token filename).data.getLast? ≠ some '.' := by
  have hnone : fileExt filename = none := by
    unfold fileExt
    simp [hfile]
  have h1 : recipe_image_file_path token filename = "uploads/recipe/" ++ token := by
    unfold recipe_image_file_path
    rw [hnone]
  refine ⟨h1, ?_⟩
  rw [h1, String.data_append, List.getLast?_append]
  cases hl : token.data.getLast? with
  | none => simp [hl]
  | some c =>
    have hcmem : c ∈ token.data := by
      rcases List.getLast?_eq_some_iff.mp hl with ⟨ys, hys⟩
      rw [hys]
      exact List.mem_append.mpr (Or.inr (List.mem_singleton.mpr rfl))
    simp only [Option.or]
    intro hcc
    rw [Option.some.injEq] at hcc
    subst hcc
    exact htok hcmem

/-- Witness for C9 at a concrete input: `myimage` has no dot, and with the
dot-free token `test-uuid` the produced path has no extension segment and no
trailing dot. -/
theorem claim_C9_witness :
    ('.' : Char) ∉ ("myimage" : String).data ∧
    ('.' : Char) ∉ ("test-uuid" : String).data ∧
    recipe_image_file_path "test-uuid" "myimage" = "uploads/recipe/" ++ "test-uuid" ∧
    (recipe_image_file_path "test-uuid" "myimage").data.getLast? ≠ some '.' := by
  have h := claim_C9_no_extension_no_trailing_dot "myimage" "test-uuid"
    (by decide) (by decide)
  exact ⟨by decide, by decide, h.1, h.2⟩
